import Mathlib

/-!
Shallow embedding of `src/lib.rs` (a bevy Pong game) for checking its
natural-language specification.

Modelling conventions:
* `f32` coordinates and velocities are embedded as exact rationals `ℚ`;
  none of the verified properties depends on floating-point rounding.
* A bevy `Transform` is represented by its 2D `translation` (a `Vec2`): the
  `z` coordinate is `0` for the ball's velocity and is never read by the
  simulation logic (`collide_aabb::collide` truncates positions to 2D).
* ECS queries become explicit lists inside `GameState`; `Query::single_mut`
  becomes `single`, which succeeds exactly on one-element lists, and an
  `if let Ok(..)` around it becomes a `match` whose `none` branch leaves the
  state unchanged.
* Each bevy system becomes a function from `GameState` (plus its external
  inputs: time delta, keyboard state, pending score events) to a new
  `GameState`.  Paddle entities carry both the `Paddle` component and a
  `Collider::Paddle` component, so the collider query seen by
  `ball_collision_system` is the paddles (as colliders) together with the
  static wall/goal colliders (`colliderView`).  Bevy does not specify the
  iteration order of a query; `colliderView` fixes one order, and theorems
  about order quantify over the resulting list.
-/

structure Vec2 where
  x : ℚ
  y : ℚ
  deriving DecidableEq, Repr

def Vec2.add (a b : Vec2) : Vec2 := ⟨a.x + b.x, a.y + b.y⟩

instance : Add Vec2 := ⟨Vec2.add⟩

def Vec2.smul (a : Vec2) (k : ℚ) : Vec2 := ⟨a.x * k, a.y * k⟩

instance : HMul Vec2 ℚ Vec2 := ⟨Vec2.smul⟩

/-- Constant `DIM` from the source. -/
def DIM : ℚ := 500

/-- Constant `PADDLE_HEIGHT` from the source. -/
def PADDLE_HEIGHT : ℚ := 100

/-- Constant `WALL_THICKNESS` from the source. -/
def WALL_THICKNESS : ℚ := 10

/-- Constant `BOUND = 2. * PADDLE_HEIGHT - 0.5 * WALL_THICKNESS` from the source. -/
def BOUND : ℚ := 2 * PADDLE_HEIGHT - 0.5 * WALL_THICKNESS

/-- The `Collider` component enum of the source. -/
inductive Collider where
  | Paddle
  | Wall
  | Left
  | Right
  deriving DecidableEq, Repr

/-- The `ScoreEvent` enum of the source. -/
inductive ScoreEvent where
  | Left
  | Right
  deriving DecidableEq, Repr

/-- The collision face reported by bevy's `collide_aabb::Collision`:
the face of the collider that the ball struck. -/
inductive Collision where
  | Left
  | Right
  | Top
  | Bottom
  deriving DecidableEq, Repr

/-- The `ScoreBoard` resource of the source. -/
structure ScoreBoard where
  left : Nat
  right : Nat
  deriving DecidableEq, Repr

/-- The `Display` impl of `ScoreBoard` renders it as left, a colon, right. -/
def scoreDisplay (sb : ScoreBoard) : String :=
  toString sb.left ++ ":" ++ toString sb.right

/-- A ball entity: `Ball` component (velocity) plus its `Transform`
translation and `Sprite` size. -/
structure BallEnt where
  velocity : Vec2
  translation : Vec2
  size : Vec2
  deriving DecidableEq, Repr

/-- A paddle entity: `Paddle` component (team, speed) plus `Transform`
translation and `Sprite` size; it also carries `Collider::Paddle`. -/
structure PaddleEnt where
  team : Nat
  speed : ℚ
  translation : Vec2
  size : Vec2
  deriving DecidableEq, Repr

/-- An entity matched by the collider query: `Transform` translation,
`Sprite` size and its `Collider` role. -/
structure ColliderEnt where
  transform : Vec2
  size : Vec2
  collider : Collider
  deriving DecidableEq, Repr

/-- Keyboard state polled by `paddle_movement_system`: whether each of the
W, S, Up and Down keys is pressed. -/
structure KeyboardInput where
  w : Bool
  s : Bool
  up : Bool
  down : Bool
  deriving DecidableEq, Repr

/-- The whole simulation state: entity lists for the ECS queries plus the
`ScoreBoard` and `Pauser` resources and the score-display text entities. -/
structure GameState where
  balls : List BallEnt
  paddles : List PaddleEnt
  statics : List ColliderEnt
  scoreboard : ScoreBoard
  texts : List String
  paused : Bool
  deriving DecidableEq, Repr

/-- `Query::single_mut`: succeeds exactly when the query matches one entity. -/
def single {α : Type} : List α → Option α
  | [a] => some a
  | _ => none

/-- The collider query of `ball_collision_system`: paddles (which carry
`Collider::Paddle`) together with the static wall and goal colliders. -/
def colliderView (s : GameState) : List ColliderEnt :=
  s.paddles.map (fun p => ⟨p.translation, p.size, Collider.Paddle⟩) ++ s.statics

/-- Strict axis-aligned rectangle overlap between a rectangle centred at
`aPos` with extents `aSize` and one centred at `bPos` with extents `bSize`. -/
def rectOverlap (aPos aSize bPos bSize : Vec2) : Prop :=
  aPos.x - aSize.x / 2 < bPos.x + bSize.x / 2 ∧
  bPos.x - bSize.x / 2 < aPos.x + aSize.x / 2 ∧
  aPos.y - aSize.y / 2 < bPos.y + bSize.y / 2 ∧
  bPos.y - bSize.y / 2 < aPos.y + aSize.y / 2

instance rectOverlap.instDecidable (aPos aSize bPos bSize : Vec2) :
    Decidable (rectOverlap aPos aSize bPos bSize) := by
  unfold rectOverlap; infer_instance

/-- Modelled from the spec: the face selection of bevy's
`collide_aabb::collide` (library code, not part of this repository).  The
spec requires reporting "which face was struck (Top/Bottom/Left/Right) via
whichever edge has the smallest penetration depth (ties broken
consistently)".  On each axis the smaller of the two candidate penetrations
picks the candidate face, and on a tie between the axes the x-axis face
(a vertical edge) is preferred. -/
def collideFace (aPos aSize bPos bSize : Vec2) : Collision :=
  let leftPen := aPos.x + aSize.x / 2 - (bPos.x - bSize.x / 2)
  let rightPen := bPos.x + bSize.x / 2 - (aPos.x - aSize.x / 2)
  let bottomPen := aPos.y + aSize.y / 2 - (bPos.y - bSize.y / 2)
  let topPen := bPos.y + bSize.y / 2 - (aPos.y - aSize.y / 2)
  if min bottomPen topPen < min leftPen rightPen then
    if bottomPen ≤ topPen then Collision.Bottom else Collision.Top
  else
    if leftPen ≤ rightPen then Collision.Left else Collision.Right

/-- Modelled from the spec: bevy's `collide_aabb::collide` (library code,
not part of this repository) as the spec describes it — an axis-aligned
rectangle overlap test that reports the struck face by smallest
penetration depth (`collideFace`) when the rectangles overlap. -/
def collide (aPos aSize bPos bSize : Vec2) : Option Collision :=
  if rectOverlap aPos aSize bPos bSize then
    some (collideFace aPos aSize bPos bSize)
  else
    none

/-- The per-collision resolution of `ball_collision_system`, translated
from the `match collider` block of the source: the collider role, the
reported collision face, the current ball velocity, the ball's and the
collider's y translation determine the new velocity and the emitted
score events. -/
def resolveCollision (c : Collider) (col : Collision) (velocity : Vec2)
    (ballY colliderY : ℚ) : Vec2 × List ScoreEvent :=
  match c with
  | Collider.Wall =>
    let reflect_y : Bool :=
      match col with
      | Collision.Top => decide (velocity.y < 0)
      | Collision.Bottom => decide (velocity.y > 0)
      | _ => false
    (if reflect_y then { velocity with y := -velocity.y + 5 } else velocity, [])
  | Collider.Paddle =>
    let reflect_x : Bool :=
      match col with
      | Collision.Left => decide (velocity.x > 0)
      | Collision.Right => decide (velocity.x < 0)
      | _ => false
    let v := if reflect_x then { velocity with x := -velocity.x + 5 } else velocity
    let distance_to_mid := ballY - colliderY
    ({ v with y := distance_to_mid * 10 }, [])
  | Collider.Left => (velocity, [ScoreEvent.Left])
  | Collider.Right => (velocity, [ScoreEvent.Right])

/-- One iteration of the collider loop of `ball_collision_system`:
run `collide` for the ball against one collider and, on a hit, resolve it
against the accumulated velocity, appending any emitted events. -/
def colStep (b : BallEnt) (acc : Vec2 × List ScoreEvent) (ent : ColliderEnt) :
    Vec2 × List ScoreEvent :=
  match collide b.translation b.size ent.transform ent.size with
  | some col =>
    let r := resolveCollision ent.collider col acc.1 b.translation.y ent.transform.y
    (r.1, acc.2 ++ r.2)
  | none => acc

/-- `ball_collision_system` from the source: for the single ball, fold the
collider loop over the collider query, store the resulting velocity back
into the ball, and return the emitted score events.  When the ball query
does not match exactly one entity, the `if let Ok` pattern leaves the
state untouched and emits nothing. -/
def ball_collision_system (s : GameState) : GameState × List ScoreEvent :=
  match single s.balls with
  | none => (s, [])
  | some b =>
    let out := (colliderView s).foldl (colStep b) (b.velocity, [])
    ({ s with balls := [{ b with velocity := out.1 }] }, out.2)

/-- The signed direction computed by `paddle_movement_system` from the held
keys: W/S for team 0, Up/Down for team 1; opposite keys cancel. -/
def paddleDirection (keys : KeyboardInput) (p : PaddleEnt) : ℚ :=
  if p.team == 0 then
    (if keys.w then 1 else 0) - (if keys.s then 1 else 0)
  else
    (if keys.up then 1 else 0) - (if keys.down then 1 else 0)

/-- The per-paddle update of `paddle_movement_system`: advance the y
translation by `delta * direction * speed` (the raw time delta) and clamp
it as `y.min(BOUND).max(-BOUND)` does. -/
def paddleStep (delta : ℚ) (keys : KeyboardInput) (p : PaddleEnt) : PaddleEnt :=
  let y := p.translation.y + delta * paddleDirection keys p * p.speed
  { p with translation := { p.translation with y := max (min y BOUND) (-BOUND) } }

/-- `paddle_movement_system` from the source: when not paused, apply
`paddleStep` to every paddle. -/
def paddle_movement_system (delta : ℚ) (keys : KeyboardInput) (s : GameState) :
    GameState :=
  if s.paused then s
  else { s with paddles := s.paddles.map (paddleStep delta keys) }

/-- The ball update of `ball_movement_system`: advance the translation by
`velocity * f32::min(0.2, delta)`. -/
def ballStep (delta : ℚ) (b : BallEnt) : BallEnt :=
  { b with translation := b.translation + b.velocity * min (0.2 : ℚ) delta }

/-- `ball_movement_system` from the source: when not paused, move the
single ball by its velocity times the clamped time delta. -/
def ball_movement_system (delta : ℚ) (s : GameState) : GameState :=
  if s.paused then s
  else
    match single s.balls with
    | some b => { s with balls := [ballStep delta b] }
    | none => s

/-- `pause_system` from the source: toggle the pause flag when the P key
was just released. -/
def pause_system (justReleasedP : Bool) (s : GameState) : GameState :=
  if justReleasedP then { s with paused := !s.paused } else s

/-- One arm of the event loop of the `score` system: increment the
opposite counter, recentre the ball and relaunch it with the fixed
velocity of the source. -/
def applyEvent (e : ScoreEvent) (sb : ScoreBoard) (b : BallEnt) :
    ScoreBoard × BallEnt :=
  match e with
  | ScoreEvent.Left =>
    ({ sb with right := sb.right + 1 },
     { b with translation := ⟨0, 0⟩, velocity := ⟨500, 50⟩ })
  | ScoreEvent.Right =>
    ({ sb with left := sb.left + 1 },
     { b with translation := ⟨0, 0⟩, velocity := ⟨-500, 50⟩ })

/-- The `score` system from the source: when the ball query and the text
query each match exactly one entity, fold `applyEvent` over the pending
events in emission order and refresh the score display; otherwise the
`if let Ok` patterns leave the state untouched. -/
def score (events : List ScoreEvent) (s : GameState) : GameState :=
  match single s.balls with
  | none => s
  | some b =>
    match single s.texts with
    | none => s
    | some _ =>
      let r := events.foldl (fun acc e => applyEvent e acc.1 acc.2) (s.scoreboard, b)
      { s with scoreboard := r.1, balls := [r.2], texts := [scoreDisplay r.1] }

/-- One logical tick in the order documented by the spec:
Movement Stage (paddles, then ball), Collision Resolution Stage, Scoring
Stage.  Bevy itself leaves the relative order of these systems
unspecified. -/
def tick (delta : ℚ) (keys : KeyboardInput) (s : GameState) : GameState :=
  let s1 := paddle_movement_system delta keys s
  let s2 := ball_movement_system delta s1
  let r := ball_collision_system s2
  score r.2 r.1

/-- The score events a single collider contributes for this ball: one goal
event when `collide` reports a hit on a goal collider, nothing otherwise. -/
def emitOne (b : BallEnt) (ent : ColliderEnt) : List ScoreEvent :=
  match collide b.translation b.size ent.transform ent.size with
  | some _ =>
    match ent.collider with
    | Collider.Left => [ScoreEvent.Left]
    | Collider.Right => [ScoreEvent.Right]
    | _ => []
  | none => []

/-- The score events emitted while iterating over a collider list, in
iteration order. -/
def emittedEvents (b : BallEnt) : List ColliderEnt → List ScoreEvent
  | [] => []
  | ent :: rest => emitOne b ent ++ emittedEvents b rest

/-! ### Helper lemmas about the collision fold -/

lemma resolveCollision_snd (c : Collider) (col : Collision) (v : Vec2) (bY cY : ℚ) :
    (resolveCollision c col v bY cY).2 =
      (match c with
       | Collider.Left => [ScoreEvent.Left]
       | Collider.Right => [ScoreEvent.Right]
       | _ => []) := by
  cases c <;> rfl

lemma colStep_snd (b : BallEnt) (acc : Vec2 × List ScoreEvent) (ent : ColliderEnt) :
    (colStep b acc ent).2 = acc.2 ++ emitOne b ent := by
  unfold colStep emitOne
  cases hc : collide b.translation b.size ent.transform ent.size with
  | none => simp
  | some col => simp [resolveCollision_snd]

lemma foldl_colStep_snd (b : BallEnt) :
    ∀ (cs : List ColliderEnt) (v : Vec2) (evts : List ScoreEvent),
      (List.foldl (colStep b) (v, evts) cs).2 = evts ++ emittedEvents b cs := by
  intro cs
  induction cs with
  | nil => intro v evts; simp [emittedEvents]
  | cons ent rest ih =>
    intro v evts
    have hstep : List.foldl (colStep b) (v, evts) (ent :: rest) =
        List.foldl (colStep b) (colStep b (v, evts) ent) rest := rfl
    have hpair : colStep b (v, evts) ent =
        ((colStep b (v, evts) ent).1, evts ++ emitOne b ent) := by
      rw [← colStep_snd b (v, evts) ent]
    rw [hstep, hpair, ih]
    show (evts ++ emitOne b ent) ++ emittedEvents b rest =
      evts ++ (emitOne b ent ++ emittedEvents b rest)
    rw [List.append_assoc]

lemma foldl_colStep_none (b : BallEnt) :
    ∀ (cs : List ColliderEnt) (acc : Vec2 × List ScoreEvent),
      (∀ ent ∈ cs, collide b.translation b.size ent.transform ent.size = none) →
      List.foldl (colStep b) acc cs = acc := by
  intro cs
  induction cs with
  | nil => intro acc _; rfl
  | cons ent rest ih =>
    intro acc h
    have h1 := h ent (List.mem_cons_self ent rest)
    have hstep : colStep b acc ent = acc := by
      unfold colStep; rw [h1]
    show List.foldl (colStep b) (colStep b acc ent) rest = acc
    rw [hstep]
    exact ih acc (fun e he => h e (List.mem_cons_of_mem _ he))

lemma ball_collision_system_snd (s : GameState) (b : BallEnt) (hb : s.balls = [b]) :
    (ball_collision_system s).2 = emittedEvents b (colliderView s) := by
  simp [ball_collision_system, hb, single, foldl_colStep_snd]

lemma mem_emittedEvents (b : BallEnt) (ent : ColliderEnt) (e : ScoreEvent) :
    ∀ cs : List ColliderEnt, ent ∈ cs → e ∈ emitOne b ent →
      e ∈ emittedEvents b cs := by
  intro cs
  induction cs with
  | nil => intro h; simp at h
  | cons c rest ih =>
    intro hmem he
    rcases List.mem_cons.mp hmem with h | h
    · subst h
      exact List.mem_append.mpr (Or.inl he)
    · exact List.mem_append.mpr (Or.inr (ih h he))

/-! ### Claim C10 -/

/-- C10: for every state, the Collision Resolution Stage mutates only the
ball's velocity (and emits events): paddles, static colliders, scoreboard,
text, pause flag and the ball's position and size are unchanged. -/
theorem collision_frame_effect (s : GameState) :
    (ball_collision_system s).1.paddles = s.paddles ∧
    (ball_collision_system s).1.statics = s.statics ∧
    (ball_collision_system s).1.scoreboard = s.scoreboard ∧
    (ball_collision_system s).1.texts = s.texts ∧
    (ball_collision_system s).1.paused = s.paused ∧
    (ball_collision_system s).1.balls.map BallEnt.translation =
      s.balls.map BallEnt.translation ∧
    (ball_collision_system s).1.balls.map BallEnt.size =
      s.balls.map BallEnt.size := by
  rcases hs : s.balls with _ | ⟨b, _ | ⟨b2, t⟩⟩ <;>
    simp [ball_collision_system, single, hs]

/-! ### Claim C2 -/

/-- C2 (counterexample): the spec scenario says a top-wall overlap with
`velocity.y = -20` yields `velocity.y = 15`, but the code computes
`-velocity.y + 5`, so a Top-face hit yields `25` (and a Bottom-face hit
leaves `-20` unchanged); neither equals `15`. -/
theorem wall_scenario_cex :
    (resolveCollision Collider.Wall Collision.Top ⟨0, -20⟩ 0 0).1.y = 25 ∧
    (resolveCollision Collider.Wall Collision.Bottom ⟨0, -20⟩ 0 0).1.y = -20 ∧
    ¬(25 : ℚ) = 15 ∧ ¬(-20 : ℚ) = 15 := by
  norm_num [resolveCollision]

/-- C2 (amended): on a wall overlap the vertical velocity is reflected if
and only if the ball still moves toward the wall (`velocity.y < 0` on a
Top-face hit, `velocity.y > 0` on a Bottom-face hit), the reflected value
is exactly `-velocity.y + 5` (so `velocity.y = -20` on a Top-face hit
yields `25`, not `15`), a wall overlap never changes `velocity.x`, and no
events are emitted. -/
theorem wall_reflection_rule (v : Vec2) (col : Collision) (bY cY : ℚ) :
    (resolveCollision Collider.Wall col v bY cY).1.x = v.x ∧
    (resolveCollision Collider.Wall col v bY cY).2 = [] ∧
    (resolveCollision Collider.Wall col v bY cY).1.y =
      (match col with
       | Collision.Top => if v.y < 0 then -v.y + 5 else v.y
       | Collision.Bottom => if v.y > 0 then -v.y + 5 else v.y
       | _ => v.y) ∧
    (resolveCollision Collider.Wall Collision.Top ⟨v.x, -20⟩ bY cY).1.y = 25 := by
  refine ⟨?_, rfl, ?_, ?_⟩
  · cases col with
    | Left => simp [resolveCollision]
    | Right => simp [resolveCollision]
    | Top => by_cases h : v.y < 0 <;> simp [resolveCollision, h]
    | Bottom => by_cases h : v.y > 0 <;> simp [resolveCollision, h]
  · cases col with
    | Left => simp [resolveCollision]
    | Right => simp [resolveCollision]
    | Top => by_cases h : v.y < 0 <;> simp [resolveCollision, h]
    | Bottom => by_cases h : v.y > 0 <;> simp [resolveCollision, h]
  · norm_num [resolveCollision]

/-! ### Claim C3 -/

/-- C3: on a paddle overlap the vertical velocity is unconditionally
overwritten with `(ball.y - paddle.y) * 10`, whatever the face and whether
or not the horizontal reflection fires; the horizontal velocity becomes
`-velocity.x + 5` exactly when the ball moves toward the paddle
(`velocity.x > 0` on a Left-face hit, `velocity.x < 0` on a Right-face
hit) and is unchanged otherwise; no events are emitted. -/
theorem paddle_reflection_rule (v : Vec2) (col : Collision) (bY cY : ℚ) :
    (resolveCollision Collider.Paddle col v bY cY).1.y = (bY - cY) * 10 ∧
    (resolveCollision Collider.Paddle col v bY cY).2 = [] ∧
    (resolveCollision Collider.Paddle col v bY cY).1.x =
      (match col with
       | Collision.Left => if v.x > 0 then -v.x + 5 else v.x
       | Collision.Right => if v.x < 0 then -v.x + 5 else v.x
       | _ => v.x) := by
  refine ⟨?_, rfl, ?_⟩
  · cases col <;> simp [resolveCollision]
  · cases col with
    | Left => by_cases h : v.x > 0 <;> simp [resolveCollision, h]
    | Right => by_cases h : v.x < 0 <;> simp [resolveCollision, h]
    | Top => simp [resolveCollision]
    | Bottom => simp [resolveCollision]

/-! ### Claim C4 -/

/-- C4: after a paddle-movement step, for every time delta, paddle speed
and directional input, the paddle's y translation lies in
`[-BOUND, BOUND]`, and `BOUND = 195`. -/
theorem paddle_bound_invariant (delta : ℚ) (keys : KeyboardInput) (p : PaddleEnt) :
    -BOUND ≤ (paddleStep delta keys p).translation.y ∧
    (paddleStep delta keys p).translation.y ≤ BOUND ∧
    BOUND = 195 := by
  have hB : BOUND = 195 := by norm_num [BOUND, PADDLE_HEIGHT, WALL_THICKNESS]
  refine ⟨le_max_right _ _, ?_, hB⟩
  have h1 : min (p.translation.y + delta * paddleDirection keys p * p.speed) BOUND ≤ BOUND :=
    min_le_right _ _
  have h2 : -BOUND ≤ BOUND := by rw [hB]; norm_num
  exact max_le h1 h2

/-! ### Claim C5 -/

/-- C5 (counterexample): a Bottom-face wall hit with `velocity.y = 2`
triggers a reflection (`2 > 0`) to `velocity.y = 3`; re-testing the same
overlap with the reflected velocity has `3 > 0` true again, and a second
reflection occurs (back to `velocity.y = 2`), so the direction check does
not prevent re-reflection on the following frame. -/
theorem wall_idempotence_cex :
    (0 : ℚ) < 2 ∧
    (resolveCollision Collider.Wall Collision.Bottom ⟨0, 2⟩ 0 0).1 = ⟨0, 3⟩ ∧
    (0 : ℚ) < 3 ∧
    (resolveCollision Collider.Wall Collision.Bottom ⟨0, 3⟩ 0 0).1 = ⟨0, 2⟩ ∧
    ¬(⟨0, 2⟩ : Vec2) = ⟨0, 3⟩ := by
  refine ⟨by norm_num, ?_, by norm_num, ?_, ?_⟩ <;>
    norm_num [resolveCollision, Vec2.mk.injEq]

/-- C5 (amended): wall reflection is idempotent against re-overlap on
Top-face hits (any triggering `velocity.y < 0` gives a reflected value
`-velocity.y + 5 > 0`, so the check fails next frame), and on Bottom-face
hits exactly when the incoming `velocity.y ≥ 5`; for `0 < velocity.y < 5`
a Bottom-face re-overlap reflects again. -/
theorem wall_idempotence_amended (v : Vec2) (bY cY : ℚ) :
    (v.y < 0 →
      resolveCollision Collider.Wall Collision.Top
        (resolveCollision Collider.Wall Collision.Top v bY cY).1 bY cY =
        ((resolveCollision Collider.Wall Collision.Top v bY cY).1, [])) ∧
    (5 ≤ v.y →
      resolveCollision Collider.Wall Collision.Bottom
        (resolveCollision Collider.Wall Collision.Bottom v bY cY).1 bY cY =
        ((resolveCollision Collider.Wall Collision.Bottom v bY cY).1, [])) := by
  constructor
  · intro h
    have h1 : (resolveCollision Collider.Wall Collision.Top v bY cY).1 =
        { v with y := -v.y + 5 } := by
      simp [resolveCollision, h]
    rw [h1]
    have h2 : ¬({ v with y := -v.y + 5 } : Vec2).y < 0 := by
      show ¬(-v.y + 5 < 0); linarith
    simp [resolveCollision, h2]
  · intro h
    have h0 : v.y > 0 := by linarith
    have h1 : (resolveCollision Collider.Wall Collision.Bottom v bY cY).1 =
        { v with y := -v.y + 5 } := by
      simp [resolveCollision, h0]
    rw [h1]
    have h2 : ¬({ v with y := -v.y + 5 } : Vec2).y > 0 := by
      show ¬(-v.y + 5 > 0); linarith
    simp [resolveCollision, h2]

/-- Witness for the amended C5 theorem at concrete inputs. -/
theorem wall_idempotence_amended_witness :
    resolveCollision Collider.Wall Collision.Top ⟨0, 25⟩ 0 0 = (⟨0, 25⟩, []) ∧
    resolveCollision Collider.Wall Collision.Bottom ⟨0, -15⟩ 0 0 = (⟨0, -15⟩, []) := by
  constructor
  · have h := (wall_idempotence_amended ⟨0, -20⟩ 0 0).1 (by norm_num)
    have e : (resolveCollision Collider.Wall Collision.Top ⟨0, -20⟩ 0 0).1 =
        (⟨0, 25⟩ : Vec2) := by
      norm_num [resolveCollision, Vec2.mk.injEq]
    rw [e] at h; exact h
  · have h := (wall_idempotence_amended ⟨0, 20⟩ 0 0).2 (by norm_num)
    have e : (resolveCollision Collider.Wall Collision.Bottom ⟨0, 20⟩ 0 0).1 =
        (⟨0, -15⟩ : Vec2) := by
      norm_num [resolveCollision, Vec2.mk.injEq]
    rw [e] at h; exact h

/-! ### More helper lemmas -/

@[simp] lemma Vec2.add_def (a b : Vec2) : a + b = ⟨a.x + b.x, a.y + b.y⟩ := rfl

@[simp] lemma Vec2.smul_def (a : Vec2) (k : ℚ) : a * k = ⟨a.x * k, a.y * k⟩ := rfl

lemma single_eq_some {α : Type} {l : List α} {a : α} (h : single l = some a) :
    l = [a] := by
  rcases l with _ | ⟨x, _ | ⟨y, t⟩⟩ <;> simp_all [single]

lemma single_eq_none {α : Type} {l : List α} (h : l.length ≠ 1) :
    single l = none := by
  rcases l with _ | ⟨x, _ | ⟨y, t⟩⟩ <;> simp_all [single]

lemma score_paddles (evts : List ScoreEvent) (s : GameState) :
    (score evts s).paddles = s.paddles := by
  unfold score
  rcases single s.balls with _ | b
  · rfl
  · rcases single s.texts with _ | t <;> rfl

lemma collision_fst_paddles (s : GameState) :
    (ball_collision_system s).1.paddles = s.paddles := by
  unfold ball_collision_system
  rcases single s.balls with _ | b <;> rfl

lemma score_nil_balls (s : GameState) :
    (score [] s).balls = s.balls ∧ (score [] s).scoreboard = s.scoreboard := by
  unfold score
  rcases hb : single s.balls with _ | b
  · exact ⟨rfl, rfl⟩
  · rcases single s.texts with _ | t
    · exact ⟨rfl, rfl⟩
    · exact ⟨(single_eq_some hb).symm, rfl⟩

/-! ### Claim C1 -/

/-- C1: whenever the ball overlaps a goal collider, the Collision
Resolution Stage emits the corresponding `ScoreEvent` (`Left` for the
left goal, `Right` for the right goal), and the Scoring Stage processes a
`Left` event by incrementing exactly `scoreboard.right` by 1 and
resetting the ball to translation `(0,0)` with velocity `(500,50)`, and a
`Right` event by incrementing exactly `scoreboard.left` by 1 and
resetting the ball to `(0,0)` with velocity `(-500,50)`. -/
theorem goal_overlap_scoring (s : GameState) (b : BallEnt) (ent : ColliderEnt)
    (sb : ScoreBoard) (b0 : BallEnt)
    (hb : s.balls = [b]) (hmem : ent ∈ colliderView s)
    (hov : rectOverlap b.translation b.size ent.transform ent.size) :
    (ent.collider = Collider.Left →
      ScoreEvent.Left ∈ (ball_collision_system s).2) ∧
    (ent.collider = Collider.Right →
      ScoreEvent.Right ∈ (ball_collision_system s).2) ∧
    applyEvent ScoreEvent.Left sb b0 =
      ({ sb with right := sb.right + 1 },
       { b0 with translation := ⟨0, 0⟩, velocity := ⟨500, 50⟩ }) ∧
    applyEvent ScoreEvent.Right sb b0 =
      ({ sb with left := sb.left + 1 },
       { b0 with translation := ⟨0, 0⟩, velocity := ⟨-500, 50⟩ }) := by
  have hc : collide b.translation b.size ent.transform ent.size =
      some (collideFace b.translation b.size ent.transform ent.size) := by
    rw [collide, if_pos hov]
  refine ⟨?_, ?_, rfl, rfl⟩
  · intro hL
    rw [ball_collision_system_snd s b hb]
    exact mem_emittedEvents b ent ScoreEvent.Left (colliderView s) hmem
      (by simp [emitOne, hc, hL])
  · intro hR
    rw [ball_collision_system_snd s b hb]
    exact mem_emittedEvents b ent ScoreEvent.Right (colliderView s) hmem
      (by simp [emitOne, hc, hR])

/-- Witness for C1 at a concrete state: a ball overlapping the left goal. -/
theorem goal_overlap_scoring_witness :
    ScoreEvent.Left ∈
      (ball_collision_system
        ⟨[⟨⟨-500, 50⟩, ⟨-525, 0⟩, ⟨50, 50⟩⟩], [],
         [⟨⟨-500, 0⟩, ⟨10, 510⟩, Collider.Left⟩], ⟨0, 0⟩, ["0:0"], false⟩).2 ∧
    applyEvent ScoreEvent.Left ⟨0, 0⟩ ⟨⟨-500, 50⟩, ⟨-525, 0⟩, ⟨50, 50⟩⟩ =
      (⟨0, 1⟩, ⟨⟨500, 50⟩, ⟨0, 0⟩, ⟨50, 50⟩⟩) := by
  have h := goal_overlap_scoring
    ⟨[⟨⟨-500, 50⟩, ⟨-525, 0⟩, ⟨50, 50⟩⟩], [],
     [⟨⟨-500, 0⟩, ⟨10, 510⟩, Collider.Left⟩], ⟨0, 0⟩, ["0:0"], false⟩
    ⟨⟨-500, 50⟩, ⟨-525, 0⟩, ⟨50, 50⟩⟩
    ⟨⟨-500, 0⟩, ⟨10, 510⟩, Collider.Left⟩
    ⟨0, 0⟩ ⟨⟨-500, 50⟩, ⟨-525, 0⟩, ⟨50, 50⟩⟩
    rfl (by simp [colliderView]) (by norm_num [rectOverlap])
  exact ⟨h.1 rfl, h.2.2.1⟩

/-! ### Claim C6 -/

/-- C6 (counterexample): the paddle system does not clamp the time delta.
With raw delta `1`, speed `500`, direction `+1` from `y = 0`, the code
moves the paddle to `y = 195` (the bound), while the claimed update with
`min(d, 0.2)` would give `y = 100`. -/
theorem movement_delta_cex :
    (paddleStep 1 ⟨true, false, false, false⟩
        ⟨0, 500, ⟨-490, 0⟩, ⟨10, 100⟩⟩).translation.y = 195 ∧
    max (min ((0 : ℚ) + min (0.2 : ℚ) 1 * 500 * 1) BOUND) (-BOUND) = 100 ∧
    ¬(195 : ℚ) = 100 := by
  norm_num [paddleStep, paddleDirection, BOUND, PADDLE_HEIGHT, WALL_THICKNESS,
    min_def, max_def]

/-- C6 (amended): the Movement Stage clamps the time delta only for the
ball: the ball advances by `velocity * min(d, 0.2)`, while each paddle's
y advances by the raw `d * direction * speed` (then clamped to the
bound). -/
theorem movement_delta_amended (d : ℚ) (keys : KeyboardInput) (s : GameState)
    (b : BallEnt) (hp : s.paused = false) (hb : s.balls = [b]) :
    (ball_movement_system d s).balls =
      [{ b with translation := b.translation + b.velocity * min (0.2 : ℚ) d }] ∧
    (paddle_movement_system d keys s).paddles =
      s.paddles.map (fun p =>
        { p with translation := { p.translation with
            y := max (min (p.translation.y + d * paddleDirection keys p * p.speed)
                   BOUND) (-BOUND) } }) := by
  constructor
  · simp [ball_movement_system, hp, hb, single, ballStep]
  · simp [paddle_movement_system, hp, paddleStep]

/-- Witness for the amended C6 theorem at a concrete state and delta. -/
theorem movement_delta_amended_witness :
    (ball_movement_system 1
      ⟨[⟨⟨500, 50⟩, ⟨0, 0⟩, ⟨50, 50⟩⟩], [⟨0, 500, ⟨-490, 0⟩, ⟨10, 100⟩⟩], [],
       ⟨0, 0⟩, ["0:0"], false⟩).balls =
      [⟨⟨500, 50⟩, ⟨100, 10⟩, ⟨50, 50⟩⟩] ∧
    (paddle_movement_system 1 ⟨true, false, false, false⟩
      ⟨[⟨⟨500, 50⟩, ⟨0, 0⟩, ⟨50, 50⟩⟩], [⟨0, 500, ⟨-490, 0⟩, ⟨10, 100⟩⟩], [],
       ⟨0, 0⟩, ["0:0"], false⟩).paddles =
      [⟨0, 500, ⟨-490, 195⟩, ⟨10, 100⟩⟩] := by
  have h := movement_delta_amended 1 ⟨true, false, false, false⟩
    ⟨[⟨⟨500, 50⟩, ⟨0, 0⟩, ⟨50, 50⟩⟩], [⟨0, 500, ⟨-490, 0⟩, ⟨10, 100⟩⟩], [],
     ⟨0, 0⟩, ["0:0"], false⟩
    ⟨⟨500, 50⟩, ⟨0, 0⟩, ⟨50, 50⟩⟩ rfl rfl
  constructor
  · rw [h.1]
    norm_num [Vec2.mk.injEq, BallEnt.mk.injEq, min_def]
  · rw [h.2]
    norm_num [paddleDirection, PaddleEnt.mk.injEq, Vec2.mk.injEq, BOUND,
      PADDLE_HEIGHT, WALL_THICKNESS, min_def, max_def]

/-! ### Claim C8 -/

/-- C8 (counterexample): with no ball entity and a pending score event the
`score` system leaves the state completely unchanged (the scoreboard is
not updated and no failure is surfaced), and with a duplicated ball the
collision system likewise does nothing: the `if let Ok` around
`single_mut` silently skips the frame instead of asserting. -/
theorem silent_skip_cex :
    score [ScoreEvent.Left] ⟨[], [], [], ⟨0, 0⟩, ["0:0"], false⟩ =
      ⟨[], [], [], ⟨0, 0⟩, ["0:0"], false⟩ ∧
    ball_collision_system
        ⟨[⟨⟨500, 50⟩, ⟨0, 0⟩, ⟨50, 50⟩⟩, ⟨⟨500, 50⟩, ⟨0, 0⟩, ⟨50, 50⟩⟩],
         [], [], ⟨0, 0⟩, ["0:0"], false⟩ =
      (⟨[⟨⟨500, 50⟩, ⟨0, 0⟩, ⟨50, 50⟩⟩, ⟨⟨500, 50⟩, ⟨0, 0⟩, ⟨50, 50⟩⟩],
        [], [], ⟨0, 0⟩, ["0:0"], false⟩, []) := by
  exact ⟨rfl, rfl⟩

/-- C8 (amended): when the singleton ball query (or, for the scoring
stage, the score-display text query) does not match exactly one entity,
the stage silently skips its work for that frame, leaving the state
unchanged; no assertion or invariant failure is surfaced. -/
theorem silent_skip_amended (s : GameState) (evts : List ScoreEvent) (d : ℚ) :
    (s.balls.length ≠ 1 →
      ball_movement_system d s = s ∧
      ball_collision_system s = (s, []) ∧
      score evts s = s) ∧
    (s.texts.length ≠ 1 → score evts s = s) := by
  constructor
  · intro h
    have hn := single_eq_none h
    refine ⟨?_, ?_, ?_⟩
    · unfold ball_movement_system
      rw [hn]
      split <;> rfl
    · unfold ball_collision_system
      rw [hn]
    · unfold score
      rw [hn]
  · intro h
    have hn := single_eq_none h
    unfold score
    rcases single s.balls with _ | b
    · rfl
    · rw [hn]

/-- Witness for the amended C8 theorem at a concrete state with no ball
and no text entity. -/
theorem silent_skip_amended_witness :
    ball_movement_system 1 ⟨[], [], [], ⟨0, 0⟩, [], false⟩ =
      ⟨[], [], [], ⟨0, 0⟩, [], false⟩ ∧
    ball_collision_system ⟨[], [], [], ⟨0, 0⟩, [], false⟩ =
      (⟨[], [], [], ⟨0, 0⟩, [], false⟩, []) ∧
    score [ScoreEvent.Right] ⟨[], [], [], ⟨0, 0⟩, [], false⟩ =
      ⟨[], [], [], ⟨0, 0⟩, [], false⟩ := by
  have h := silent_skip_amended ⟨[], [], [], ⟨0, 0⟩, [], false⟩
    [ScoreEvent.Right] 1
  exact h.1 (by simp)

/-! ### Claim C9 -/

/-- C9: with a single ball, the Collision Resolution Stage processes every
collider of the query in iteration order — the emitted events are the
concatenation of the events of each overlapping collider, never just the
first hit — and the Scoring Stage folds the events in emission order: two
simultaneous goal events increment both counters by exactly 1 and leave
the ball at the reset of the last-processed event. -/
theorem all_overlaps_processed (s : GameState) (b : BallEnt)
    (sb : ScoreBoard) (b0 : BallEnt) (hb : s.balls = [b]) :
    (ball_collision_system s).2 = emittedEvents b (colliderView s) ∧
    List.foldl (fun acc e => applyEvent e acc.1 acc.2) (sb, b0)
        [ScoreEvent.Left, ScoreEvent.Right] =
      (⟨sb.left + 1, sb.right + 1⟩,
       { b0 with translation := ⟨0, 0⟩, velocity := ⟨-500, 50⟩ }) ∧
    List.foldl (fun acc e => applyEvent e acc.1 acc.2) (sb, b0)
        [ScoreEvent.Right, ScoreEvent.Left] =
      (⟨sb.left + 1, sb.right + 1⟩,
       { b0 with translation := ⟨0, 0⟩, velocity := ⟨500, 50⟩ }) := by
  exact ⟨ball_collision_system_snd s b hb, rfl, rfl⟩

/-- Witness for C9 at a concrete state where the ball overlaps both goals
at once: both events are emitted in iteration order, both counters are
incremented, and the last reset wins. -/
theorem all_overlaps_processed_witness :
    (ball_collision_system
      ⟨[⟨⟨500, 50⟩, ⟨0, 0⟩, ⟨50, 50⟩⟩], [],
       [⟨⟨-20, 0⟩, ⟨10, 510⟩, Collider.Left⟩,
        ⟨⟨20, 0⟩, ⟨10, 510⟩, Collider.Right⟩],
       ⟨0, 0⟩, ["0:0"], false⟩).2 = [ScoreEvent.Left, ScoreEvent.Right] ∧
    List.foldl (fun acc e => applyEvent e acc.1 acc.2)
        (⟨0, 0⟩, ⟨⟨500, 50⟩, ⟨0, 0⟩, ⟨50, 50⟩⟩)
        [ScoreEvent.Left, ScoreEvent.Right] =
      (⟨1, 1⟩, ⟨⟨-500, 50⟩, ⟨0, 0⟩, ⟨50, 50⟩⟩) := by
  have h := all_overlaps_processed
    ⟨[⟨⟨500, 50⟩, ⟨0, 0⟩, ⟨50, 50⟩⟩], [],
     [⟨⟨-20, 0⟩, ⟨10, 510⟩, Collider.Left⟩,
      ⟨⟨20, 0⟩, ⟨10, 510⟩, Collider.Right⟩],
     ⟨0, 0⟩, ["0:0"], false⟩
    ⟨⟨500, 50⟩, ⟨0, 0⟩, ⟨50, 50⟩⟩ ⟨0, 0⟩ ⟨⟨500, 50⟩, ⟨0, 0⟩, ⟨50, 50⟩⟩ rfl
  have hc1 : collide (⟨0, 0⟩ : Vec2) ⟨50, 50⟩ (⟨-20, 0⟩ : Vec2) ⟨10, 510⟩ =
      some (collideFace ⟨0, 0⟩ ⟨50, 50⟩ ⟨-20, 0⟩ ⟨10, 510⟩) := by
    rw [collide, if_pos]
    norm_num [rectOverlap]
  have hc2 : collide (⟨0, 0⟩ : Vec2) ⟨50, 50⟩ (⟨20, 0⟩ : Vec2) ⟨10, 510⟩ =
      some (collideFace ⟨0, 0⟩ ⟨50, 50⟩ ⟨20, 0⟩ ⟨10, 510⟩) := by
    rw [collide, if_pos]
    norm_num [rectOverlap]
  refine ⟨?_, h.2.1⟩
  rw [h.1]
  simp [colliderView, emittedEvents, emitOne, hc1, hc2]

/-! ### Claim C7 -/

lemma collision_fst_scoreboard (s : GameState) :
    (ball_collision_system s).1.scoreboard = s.scoreboard := by
  unfold ball_collision_system
  rcases single s.balls with _ | b <;> rfl

/-- A paused state whose ball sits inside the left goal collider. -/
def pausedGoalState : GameState :=
  ⟨[⟨⟨-500, 50⟩, ⟨-525, 0⟩, ⟨50, 50⟩⟩], [],
   [⟨⟨-500, 0⟩, ⟨10, 510⟩, Collider.Left⟩], ⟨0, 0⟩, ["0:0"], true⟩

/-- A paused state whose ball overlaps no collider. -/
def pausedFreeState : GameState :=
  ⟨[⟨⟨500, 50⟩, ⟨0, 0⟩, ⟨50, 50⟩⟩], [⟨0, 500, ⟨-490, 100⟩, ⟨10, 100⟩⟩],
   [⟨⟨0, 255⟩, ⟨1010, 10⟩, Collider.Wall⟩], ⟨2, 3⟩, ["2:3"], true⟩

/-- C7 (counterexample): pausing does not freeze the ball when it overlaps
a goal collider: collision and scoring still run while paused, so one tick
of `pausedGoalState` moves the ball from `(-525, 0)` to the reset position
`(0, 0)` and increments the score — the position does not remain
unchanged while paused. -/
theorem pause_frozen_cex :
    pausedGoalState.paused = true ∧
    pausedGoalState.balls.map BallEnt.translation = [⟨-525, 0⟩] ∧
    (tick 1 ⟨false, false, false, false⟩ pausedGoalState).balls.map
      BallEnt.translation = [⟨0, 0⟩] ∧
    (tick 1 ⟨false, false, false, false⟩ pausedGoalState).scoreboard = ⟨0, 1⟩ ∧
    ¬(⟨-525, 0⟩ : Vec2) = ⟨0, 0⟩ := by
  have hcol : collide (⟨-525, 0⟩ : Vec2) ⟨50, 50⟩ (⟨-500, 0⟩ : Vec2) ⟨10, 510⟩ =
      some (collideFace ⟨-525, 0⟩ ⟨50, 50⟩ ⟨-500, 0⟩ ⟨10, 510⟩) := by
    rw [collide, if_pos]
    norm_num [rectOverlap]
  have h0a : paddle_movement_system 1 ⟨false, false, false, false⟩ pausedGoalState =
      pausedGoalState := rfl
  have h0b : ball_movement_system 1 pausedGoalState = pausedGoalState := rfl
  have h2 : ball_collision_system pausedGoalState =
      (pausedGoalState, [ScoreEvent.Left]) := by
    simp [ball_collision_system, pausedGoalState, single, colliderView, colStep,
      hcol, resolveCollision]
  have ht : tick 1 ⟨false, false, false, false⟩ pausedGoalState =
      score [ScoreEvent.Left] pausedGoalState := by
    simp only [tick]
    rw [h0a, h0b, h2]
  have h3 : (score [ScoreEvent.Left] pausedGoalState).balls =
        [⟨⟨500, 50⟩, ⟨0, 0⟩, ⟨50, 50⟩⟩] ∧
      (score [ScoreEvent.Left] pausedGoalState).scoreboard = ⟨0, 1⟩ := by
    constructor <;> simp [score, pausedGoalState, single, applyEvent]
  refine ⟨rfl, rfl, ?_, ?_, by norm_num [Vec2.mk.injEq]⟩
  · rw [ht, h3.1]
    rfl
  · rw [ht, h3.2]

/-- C7 (amended): while paused, paddle positions are unchanged by a tick;
and when the single ball overlaps no collider, the ball list (hence its
position and velocity) and the scoreboard are also unchanged, so motion
resumes from exactly the held state.  (When the ball does overlap a
collider, collision and scoring still run while paused and can change the
velocity, the score and the ball position.) -/
theorem pause_frozen_amended (d : ℚ) (keys : KeyboardInput) (s : GameState)
    (hp : s.paused = true) :
    (tick d keys s).paddles = s.paddles ∧
    (∀ b, s.balls = [b] →
      (∀ ent ∈ colliderView s,
        collide b.translation b.size ent.transform ent.size = none) →
      (tick d keys s).balls = s.balls ∧
      (tick d keys s).scoreboard = s.scoreboard) := by
  have h0a : paddle_movement_system d keys s = s := by
    unfold paddle_movement_system
    rw [hp]
    rfl
  have h0b : ball_movement_system d s = s := by
    unfold ball_movement_system
    rw [hp]
    rfl
  have ht : tick d keys s =
      score (ball_collision_system s).2 (ball_collision_system s).1 := by
    simp only [tick]
    rw [h0a, h0b]
  constructor
  · rw [ht, score_paddles]
    exact collision_fst_paddles s
  · intro b hb hnone
    have hfold := foldl_colStep_none b (colliderView s) (b.velocity, []) hnone
    have hev : (ball_collision_system s).2 = [] := by
      rw [ball_collision_system_snd s b hb]
      have h5 := foldl_colStep_snd b (colliderView s) b.velocity []
      rw [hfold] at h5
      simpa using h5.symm
    have hballs : (ball_collision_system s).1.balls = [b] := by
      simp [ball_collision_system, hb, single, hfold]
    refine ⟨?_, ?_⟩
    · rw [ht, hev, (score_nil_balls _).1, hballs, hb]
    · rw [ht, hev, (score_nil_balls _).2]
      exact collision_fst_scoreboard s

/-- Witness for the amended C7 theorem: a paused tick of
`pausedFreeState` changes neither the paddles, nor the ball, nor the
scoreboard. -/
theorem pause_frozen_amended_witness :
    (tick 7 ⟨true, false, true, false⟩ pausedFreeState).paddles =
      pausedFreeState.paddles ∧
    (tick 7 ⟨true, false, true, false⟩ pausedFreeState).balls =
      pausedFreeState.balls ∧
    (tick 7 ⟨true, false, true, false⟩ pausedFreeState).scoreboard =
      pausedFreeState.scoreboard := by
  have h := pause_frozen_amended 7 ⟨true, false, true, false⟩ pausedFreeState rfl
  have hb := h.2 ⟨⟨500, 50⟩, ⟨0, 0⟩, ⟨50, 50⟩⟩ rfl (by
    intro ent hmem
    simp [colliderView, pausedFreeState] at hmem
    rcases hmem with rfl | rfl <;> (rw [collide, if_neg] ; norm_num [rectOverlap]))
  exact ⟨h.1, hb.1, hb.2⟩
